import Mathlib

/-!
Verification of the OpenMDAO instance profiler
(`openmdao/devtools/profile.py`) against its specification.

The embedding models Python strings as Lean `String` (a wrapper around
`List Char` in this toolchain), Python dicts as insertion-ordered
association lists (`List (String × α)` with replace-in-place assignment),
Python floats as exact rationals `Rat` (all timing arithmetic in the
profiler is +, -, /, comparisons; rounding is irrelevant to every claim),
and raised exceptions as `Except String` results carrying a message in the
style of the Python exception.  The file system is a function from file
names to optional line lists.
-/

namespace Iprof

/-! ### Python string primitives -/

/-- Python `s.split('@')` at the character level: splitting the empty
string yields one empty segment, like Python. -/
def splitCharsSep (sep : Char) : List Char → List (List Char)
  | [] => [[]]
  | c :: rest =>
    match splitCharsSep sep rest with
    | [] => [[]]
    | g :: gs => if c = sep then [] :: g :: gs else (c :: g) :: gs

/-- Python `'@'.join(parts)`:  `join [] = ""`, `join [p] = p`,
`join (p :: rest) = p ++ "@" ++ join rest`. -/
def joinSegs : List String → String
  | [] => ""
  | [p] => p
  | p :: rest => p ++ "@" ++ joinSegs rest

/-- Character-level counterpart of `joinSegs`, used to relate joining
and splitting. -/
def joinSegsChars : List (List Char) → List Char
  | [] => []
  | [g] => g
  | g :: rest => g ++ '@' :: joinSegsChars rest

/-- Split a character list at the LAST occurrence of `sep`, returning the
parts before and after it, or `none` when `sep` does not occur.  Used for
Python `rsplit(sep, 1)` and for `os.path.splitext`. -/
def lastSplitAt (sep : Char) : List Char → Option (List Char × List Char)
  | [] => none
  | c :: rest =>
    match lastSplitAt sep rest with
    | some (pre, suf) => some (c :: pre, suf)
    | none => if c = sep then some ([], rest) else none

/-- Python `funcpath.split('@')`. -/
def pysplitSep (s : String) : List String :=
  (splitCharsSep '@' s.data).map String.mk

/-- Python `funcpath.rsplit('@', 1)`: a one-element list when there is no
separator, otherwise `[prefix-before-last-sep, last-segment]`. -/
def rsplit1 (s : String) : List String :=
  match lastSplitAt '@' s.data with
  | none => [s]
  | some (pre, suf) => [String.mk pre, String.mk suf]

/-- `parts[0]` of `funcpath.rsplit('@', 1)`. -/
def headSeg (s : String) : String := (rsplit1 s).getD 0 ""

/-- `parts[-1]` of `funcpath.rsplit('@', 1)`. -/
def lastSeg (s : String) : String := (rsplit1 s).getLastD ""

/-- The direct parent of a path: `parts[0]` when
`funcpath.rsplit('@', 1)` produces two parts (i.e. the path has more than
one segment), `none` for a root path.  This is exactly the
`if len(parts) > 1` test of the child-time pass in `_finalize_profile`. -/
def pparent (q : String) : Option String :=
  match rsplit1 q with
  | [p, _] => some p
  | _ => none

/-- `os.path.splitext(p)[1]`: the extension (with its dot) of the final
path component, empty when every character before the last dot of the
component is itself a dot (CPython's leading-dot rule). -/
def splitextExt (p : String) : String :=
  let b : List Char :=
    match lastSplitAt '/' p.data with
    | some (_, suffix) => suffix
    | none => p.data
  match lastSplitAt '.' b with
  | none => ""
  | some (pre, suf) => if pre.all (fun c => c = '.') then "" else String.mk ('.' :: suf)

/-- Python `str.split()` (no argument): runs of whitespace delimit words,
leading/trailing whitespace ignored, no empty fields.  Accumulator holds
the current word reversed. -/
def wsSplitAux : List Char → List Char → List (List Char)
  | [], acc => if acc.isEmpty then [] else [acc.reverse]
  | c :: rest, acc =>
    if c.isWhitespace then
      if acc.isEmpty then wsSplitAux rest []
      else acc.reverse :: wsSplitAux rest []
    else wsSplitAux rest (c :: acc)

/-- Python `line.split()`. -/
def pysplitWs (s : String) : List String :=
  (wsSplitAux s.data []).map String.mk

/-! ### Python numeric literal parsing

`int(s)` and `float(s)` as used on raw-trace fields.  The profiler writes
records with `"%s %d %f"`, so only optional sign, digits and a decimal
point occur; Python's additional forms (surrounding whitespace,
underscores, exponents, inf/nan) never arise and are not modelled. -/

def digitsToNat (cs : List Char) : Nat :=
  cs.foldl (fun a c => a * 10 + (c.toNat - 48)) 0

/-- Python `int(s)` on a character list: optional sign then a nonempty
digit run. -/
def pyintChars : List Char → Option Int
  | '-' :: rest =>
    if rest ≠ [] ∧ rest.all Char.isDigit then some (-(digitsToNat rest : Int)) else none
  | '+' :: rest =>
    if rest ≠ [] ∧ rest.all Char.isDigit then some (digitsToNat rest : Int) else none
  | cs =>
    if cs ≠ [] ∧ cs.all Char.isDigit then some (digitsToNat cs : Int) else none

def pyint (s : String) : Option Int := pyintChars s.data

/-- Unsigned part of Python `float(s)`: digit run with an optional
decimal point (`"2"`, `"2.0"`, `".5"`, `"2."`). -/
def pyfloatUnsigned (cs : List Char) : Option Rat :=
  let intPart := cs.takeWhile Char.isDigit
  let rest := cs.dropWhile Char.isDigit
  match rest with
  | [] => if intPart = [] then none else some (digitsToNat intPart : Rat)
  | '.' :: frac =>
    if frac.all Char.isDigit ∧ (intPart ≠ [] ∨ frac ≠ []) then
      some ((digitsToNat intPart : Rat) + (digitsToNat frac : Rat) / ((10 : Rat) ^ frac.length))
    else none
  | _ => none

/-- Python `float(s)` on the decimal forms produced by the raw-trace
writer. -/
def pyfloat (s : String) : Option Rat :=
  match s.data with
  | '-' :: rest => (pyfloatUnsigned rest).map (fun q => -q)
  | '+' :: rest => pyfloatUnsigned rest
  | _ => pyfloatUnsigned s.data

/-! ### Python dict as insertion-ordered association list -/

/-- Python `m[k]` lookup (first, and with unique keys the only, match). -/
def dget {α : Type} (m : List (String × α)) (k : String) : Option α :=
  match m with
  | [] => none
  | e :: rest => if e.1 = k then some e.2 else dget rest k

/-- Python `m[k] = v`: replace in place when the key exists (keeping its
insertion position), otherwise append. -/
def dinsert {α : Type} (m : List (String × α)) (k : String) (v : α) : List (String × α) :=
  match m with
  | [] => [(k, v)]
  | e :: rest => if e.1 = k then (k, v) :: rest else e :: dinsert rest k v

/-- Python read-modify-write `m[k] = f(m[k])`; `none` models the
`KeyError` when `k` is absent. -/
def dmodify {α : Type} (m : List (String × α)) (k : String) (f : α → α) :
    Option (List (String × α)) :=
  match m with
  | [] => none
  | e :: rest =>
    if e.1 = k then some ((e.1, f e.2) :: rest)
    else (dmodify rest k f).map (fun r => e :: r)

/-! ### Except helpers (Python exceptions) -/

def errOf {α : Type} : Except String α → Option String
  | .error e => some e
  | .ok _ => none

def okOf {α : Type} : Except String α → Option α
  | .error _ => none
  | .ok a => some a

/-- Map a fallible function over a list, stopping at the first raised
exception (a Python `for` loop body that may raise). -/
def mapE {α β : Type} (f : α → Except String β) : List α → Except String (List β)
  | [] => .ok []
  | a :: l =>
    match f a with
    | .error e => .error e
    | .ok b =>
      match mapE f l with
      | .error e => .error e
      | .ok bs => .ok (b :: bs)

/-- Fold a fallible step over a list, stopping at the first raised
exception. -/
def foldE {σ α : Type} (f : σ → α → Except String σ) : σ → List α → Except String σ
  | st, [] => .ok st
  | st, a :: l =>
    match f st a with
    | .error e => .error e
    | .ok st2 => foldE f st2 l

/-! ### Profile nodes (`_prof_node`) -/

/-- One profile-tree node, the dict built by `_prof_node`.  The `obj`
entry holds an opaque host-object reference consumed only by the external
name resolver, so only its presence is tracked; `has_obj` /
`has_child_time` record whether the `obj` / `child_time` keys are still
present (`process_profile` deletes both with `del`). -/
structure PNode where
  name : String
  short_name : String
  time : Rat
  count : Int
  tot_time : Rat
  tot_count : Int
  pct_total : Rat
  tot_pct_total : Rat
  pct_parent : Rat
  child_time : Rat
  has_obj : Bool
  has_child_time : Bool
deriving DecidableEq

/-- `_prof_node(parts)`: a fresh node named by joining the parts with
`'@'`, with `short_name = parts[-1]` and zeroed statistics. -/
def prof_node (parts : List String) : PNode :=
  { name := joinSegs parts
    short_name := parts.getLastD ""
    time := 0
    count := 0
    tot_time := 0
    tot_count := 0
    pct_total := 0
    tot_pct_total := 0
    pct_parent := 0
    child_time := 0
    has_obj := true
    has_child_time := true }

/-! ### Global tracker state and the call-stack tracker -/

/-- The module-level globals of the tracker: `_profile_setup`,
`_profile_start`, `_profile_total`, `_call_stack`, `_timing_stack`,
`_inst_data`, and whether a profile hook is registered with the runtime
(`sys.getprofile() is not None`).  The output file handle, profile prefix
and method-matcher tables are external I/O and are not part of any
claim. -/
structure ProfGlobals where
  profile_setup : Bool
  profile_start : Option Rat
  profile_total : Rat
  call_stack : List String
  timing_stack : List Rat
  inst_data : List (String × PNode)
  sys_profile : Bool
deriving DecidableEq

/-- `setup()` as reached from `start()` (only when not yet set up, so its
already-set-up guard cannot fire there).  Opening the output file,
registering the atexit hook and collecting the method matches are
external I/O; the modelled effect is the setup flag. -/
def setup (s : ProfGlobals) : ProfGlobals :=
  { s with profile_setup := true }

/-- A call/return event delivered to `_instance_profile`.  Whether the
event's function matches `_profile_matches` (name pattern plus
`isinstance` check on `self`) is decided by the external call-site
matcher and carried as `matched`; `token` is the
`file#line#id#name` call-site string built from the frame, and `now` the
`etime()` reading. -/
inductive ProfEvent where
  | call (matched : Bool) (token : String) (now : Rat)
  | ret (matched : Bool) (token : String) (now : Rat)
deriving DecidableEq

/-- `_instance_profile(frame, event, arg)`.  On a matched call the token
and timestamp are pushed.  On a matched return the code joins the WHOLE
current call stack as the path key (it never rebuilds or compares the
returning frame's token), upserts the node, pops both stacks and
accumulates `time`/`count`.  `list.pop()` on an empty stack (or
`_prof_node([])` reached with an empty stack) raises `IndexError`. -/
def instance_profile (s : ProfGlobals) (e : ProfEvent) : Except String ProfGlobals :=
  match e with
  | .call matched token now =>
    if matched then
      .ok { s with call_stack := s.call_stack ++ [token],
                   timing_stack := s.timing_stack ++ [now] }
    else .ok s
  | .ret matched _token now =>
    if matched then
      if s.call_stack.isEmpty then .error "IndexError: list index out of range"
      else
        let path := joinSegs s.call_stack
        let d0 := (dget s.inst_data path).getD (prof_node s.call_stack)
        match s.timing_stack.getLast? with
        | none => .error "IndexError: pop from empty list"
        | some t0 =>
          .ok { s with
                call_stack := s.call_stack.dropLast,
                timing_stack := s.timing_stack.dropLast,
                inst_data := dinsert s.inst_data path
                  { d0 with time := d0.time + (now - t0), count := d0.count + 1 } }
    else .ok s

/-- `start()`.  Returns the new global state, the lines printed, and the
raised exception if any (Python leaves the mutated globals in place when
`RuntimeError` propagates, so the state is returned alongside the
error). -/
def start (s : ProfGlobals) (now : Rat) : ProfGlobals × List String × Option String :=
  match s.profile_start with
  | some _ => (s, ["profiling is already active."], none)
  | none =>
    let s1 := if s.profile_setup then s else setup s
    let s2 := { s1 with
                profile_start := some now,
                call_stack := s1.call_stack ++ ["$total"],
                inst_data :=
                  if (dget s1.inst_data "$total").isSome then s1.inst_data
                  else dinsert s1.inst_data "$total" (prof_node ["$total"]) }
    if s2.sys_profile then
      (s2, [], some "RuntimeError: another profile function is already active.")
    else ({ s2 with sys_profile := true }, [], none)

/-- `stop()`.  A no-op when no session is active; otherwise unregisters
the hook, pops the root token, accumulates the session duration and
updates the `$total` node.  The two dict accesses on `'$total'`
(`['time'] = ...` then `['count'] += 1`) are collapsed into one update of
the same entry. -/
def stop (s : ProfGlobals) (now : Rat) : ProfGlobals × Option String :=
  match s.profile_start with
  | none => (s, none)
  | some t0 =>
    let s1 := { s with sys_profile := false }
    match s1.call_stack.getLast? with
    | none => (s1, some "IndexError: pop from empty list")
    | some _ =>
      let s2 := { s1 with call_stack := s1.call_stack.dropLast }
      let s3 := { s2 with profile_total := s2.profile_total + (now - t0) }
      match dget s3.inst_data "$total" with
      | none => (s3, some "KeyError: $total")
      | some nd =>
        ({ s3 with
           inst_data := dinsert s3.inst_data "$total"
             { nd with time := s3.profile_total, count := nd.count + 1 },
           profile_start := none }, none)

/-! ### `_finalize_profile`: child-time pass and `$parent` synthesis

Only the two algorithmic passes of `_finalize_profile` are modelled; the
name fixing uses the external AST-based resolver and the final write is
file I/O, both outside the core per the specification. -/

/-- The child-time pass (`for funcpath, data in iteritems(_inst_data):
if len(parts) > 1: _inst_data[parts[0]]['child_time'] += data['time']`),
iterating the original entries (the loop never mutates the `time` fields
it reads) while threading the mutated dict; a missing parent key raises
`KeyError`. -/
def childTimeLoop : List (String × PNode) → List (String × PNode) →
    Except String (List (String × PNode))
  | [], m => .ok m
  | (q, d) :: rest, m =>
    match pparent q with
    | none => childTimeLoop rest m
    | some p =>
      match dmodify m p (fun n => { n with child_time := n.child_time + d.time }) with
      | none => .error ("KeyError: " ++ p)
      | some m2 => childTimeLoop rest m2

/-- The full child-time pass over `_inst_data`. -/
def child_time_pass (data : List (String × PNode)) :
    Except String (List (String × PNode)) :=
  childTimeLoop data data

/-- The `$parent` synthesis pass: for every node with positive
`child_time`, one synthetic leaf keyed by the node's segments plus
`'$parent'`, carrying the node's exclusive time and `count = 1`; the
input nodes themselves are not modified. -/
def compute_parnodes : List (String × PNode) → List (String × PNode)
  | [] => []
  | (funcpath, node) :: rest =>
    if 0 < node.child_time then
      (joinSegs (pysplitSep funcpath ++ ["$parent"]),
        { prof_node (pysplitSep funcpath ++ ["$parent"]) with
          time := node.time - node.child_time, count := 1 })
        :: compute_parnodes rest
    else compute_parnodes rest

/-! ### Raw-trace reader (`_iter_raw_prof_file`) -/

/-- Parse one raw-trace line: `path, count, elapsed = line.split()` then
`int(count)` and `float(elapsed)`; any failure raises `ValueError`.  The
messages carry only the field information Python's exceptions carry —
none of them names the data file. -/
def parse_line (line : String) : Except String (String × Int × Rat) :=
  match pysplitWs line with
  | [path, c, e] =>
    match pyint c with
    | none => .error ("ValueError: invalid literal for int() with base 10: " ++ c)
    | some ci =>
      match pyfloat e with
      | none => .error ("ValueError: could not convert string to float: " ++ e)
      | some ef => .ok (path, ci, ef)
  | fields =>
    if fields.length < 3 then .error "ValueError: not enough values to unpack (expected 3)"
    else .error "ValueError: too many values to unpack (expected 3)"

/-- `_iter_raw_prof_file(rawname)`: open the file (a missing file raises
naming the file, as Python's `open` does) and parse each line in order;
the parse error for a malformed line is whatever `parse_line` raises,
independent of `rawname`. -/
def iter_raw_prof_file (fs : String → Option (List String)) (rawname : String) :
    Except String (List (String × Int × Rat)) :=
  match fs rawname with
  | none => .error ("IOError: No such file or directory: " ++ rawname)
  | some lines => mapE parse_line lines

/-! ### `process_profile` -/

/-- The per-file rank decoration: `ext = os.path.splitext(fname)[1]`,
then `dec = ext` when `int(ext.lstrip('.'))` parses, else no
decoration (`dec = False`). -/
def decOf (fname : String) : Option String :=
  let ext := splitextExt fname
  match pyintChars (ext.data.dropWhile (fun c => c = '.')) with
  | some _ => some ext
  | none => none

/-- One record of the loading loop of `process_profile`: build the
(possibly rank-decorated) path, assign a FRESH `_prof_node` into
`tree_nodes[funcpath]` and add the record's time/count to it, then
(unless the trailing segment is `'$parent'`) accumulate the totals bucket
keyed by the trailing segment. -/
def processRecord (nfiles : Nat) (dec : Option String)
    (st : List (String × PNode) × List (String × PNode))
    (rec : String × Int × Rat) : List (String × PNode) × List (String × PNode) :=
  let tree := st.1
  let totals := st.2
  let parts0 := pysplitSep rec.1
  let decorated : Bool :=
    match dec with
    | some _ => nfiles > 1
    | none => false
  let parts := match dec with
    | some d => if nfiles > 1 then parts0.map (fun p => p ++ d) else parts0
    | none => parts0
  let funcpath := if decorated then joinSegs parts else rec.1
  let n0 := prof_node parts
  let node := { n0 with time := n0.time + rec.2.2, count := n0.count + rec.2.1 }
  let tree2 := dinsert tree funcpath node
  let funcname := parts.getLastD ""
  if funcname = "$parent" then (tree2, totals)
  else
    let tnode := match dget totals funcname with
      | some n => n
      | none => prof_node parts
    (tree2, dinsert totals funcname
      { tnode with tot_time := tnode.tot_time + rec.2.2,
                   tot_count := tnode.tot_count + rec.2.1 })

/-- Python float division: raises `ZeroDivisionError` on a zero
denominator, there is no sentinel. -/
def pydiv (a b : Rat) : Except String Rat :=
  if b = 0 then .error "ZeroDivisionError: float division by zero" else .ok (a / b)

/-- The second pass of `process_profile` on one tree entry: copy the
totals into the node and compute the three percentages (parent =
`tree_nodes[parts[0]]`, root = `tree_nodes['$total']`), skipping
`$parent` nodes; in all cases `del node['obj']` and
`del node['child_time']`.  Lookups and divisions appear in source
order so the first raised exception matches Python's. -/
def pass2Node (tree totals : List (String × PNode)) (e : String × PNode) :
    Except String (String × PNode) :=
  let funcpath := e.1
  let node := e.2
  if lastSeg funcpath ≠ "$parent" then
    match dget totals (lastSeg funcpath) with
    | none => .error ("KeyError: " ++ lastSeg funcpath)
    | some tn =>
      match dget tree (headSeg funcpath) with
      | none => .error ("KeyError: " ++ headSeg funcpath)
      | some par =>
        match pydiv node.time par.time with
        | .error er => .error er
        | .ok pp =>
          match dget tree "$total" with
          | none => .error "KeyError: $total"
          | some root =>
            match pydiv node.time root.time with
            | .error er => .error er
            | .ok pt =>
              match pydiv tn.tot_time root.time with
              | .error er => .error er
              | .ok tpt =>
                let node2 := { node with
                  tot_time := tn.tot_time
                  tot_count := tn.tot_count
                  pct_parent := pp
                  pct_total := pt
                  tot_pct_total := tpt
                  has_obj := false
                  has_child_time := false }
                .ok (funcpath, node2)
  else
    .ok (funcpath, { node with has_obj := false, has_child_time := false })

/-- The final pass of `process_profile` for one key: a `$parent`-suffixed
path zeroes its parent node's `time`. -/
def pass3Step (tree : List (String × PNode)) (funcpath : String) :
    Except String (List (String × PNode)) :=
  if lastSeg funcpath = "$parent" then
    match dmodify tree (headSeg funcpath) (fun n => { n with time := 0 }) with
    | none => .error ("KeyError: " ++ headSeg funcpath)
    | some t2 => .ok t2
  else .ok tree

/-- `process_profile(flist)`: load every file's records (with rank
decoration when more than one file is given and the extension parses as
an integer), run the percentage pass, set the root's `tot_time` to its
own `time`, run the `$parent` zeroing pass, and return
`(list(tree_nodes.values()), totals)`. -/
def process_profile (fs : String → Option (List String)) (flist : List String) :
    Except String (List PNode × List (String × PNode)) :=
  let nfiles := flist.length
  match foldE (fun st fname =>
      match iter_raw_prof_file fs fname with
      | .error e => .error e
      | .ok recs => .ok (recs.foldl (processRecord nfiles (decOf fname)) st))
    ([], []) flist with
  | .error e => .error e
  | .ok (tree, totals) =>
    match mapE (pass2Node tree totals) tree with
    | .error e => .error e
    | .ok tree2 =>
      match dmodify tree2 "$total" (fun n => { n with tot_time := n.time }) with
      | none => .error "KeyError: $total"
      | some tree3 =>
        match foldE pass3Step tree3 (tree3.map Prod.fst) with
        | .error e => .error e
        | .ok tree4 => .ok (tree4.map Prod.snd, totals)

/-! ### Concrete inputs and states used by the claim theorems -/

/-- Two raw trace files from a two-process run, each holding only its
root record; both extensions parse as integers, so both are
rank-decorated. -/
def c1fs : String → Option (List String) := fun n =>
  if n = "a.0" then some ["$total 1 1.0"]
  else if n = "b.1" then some ["$total 1 1.0"]
  else none

/-- A raw file holding only a zero-duration root record. -/
def c2fs : String → Option (List String) := fun _ => some ["$total 1 0.0"]

/-- The raw file of the specification's concrete merge scenario. -/
def c3fs : String → Option (List String) := fun _ =>
  some ["A 1 2.0", "A@B 1 1.0", "$total 1 3.0"]

/-- A raw file in which two records share the decorated path `A`. -/
def c4fs : String → Option (List String) := fun _ =>
  some ["A 1 2.0", "A 1 3.0", "$total 1 6.0"]

/-- A file system in which every file holds one malformed raw line
(two fields instead of three). -/
def c9fs : String → Option (List String) := fun _ => some ["$total 1"]

/-- Tracker globals with call-site `X` on top of the call stack. -/
def g5 : ProfGlobals :=
  { profile_setup := true, profile_start := some 0, profile_total := 0,
    call_stack := ["$total", "X"], timing_stack := [0, 1],
    inst_data := [("$total", prof_node ["$total"])], sys_profile := true }

/-- Tracker globals with an active session (`_profile_start` set). -/
def gActive : ProfGlobals :=
  { profile_setup := true, profile_start := some 2, profile_total := 0,
    call_stack := ["$total"], timing_stack := [],
    inst_data := [("$total", prof_node ["$total"])], sys_profile := true }

/-- Tracker globals with no active session. -/
def gIdle : ProfGlobals :=
  { profile_setup := true, profile_start := none, profile_total := 0,
    call_stack := [], timing_stack := [], inst_data := [], sys_profile := false }

/-- Tracker globals with no active session but a foreign profile hook
already registered with the runtime. -/
def g10 : ProfGlobals :=
  { profile_setup := true, profile_start := none, profile_total := 0,
    call_stack := [], timing_stack := [], inst_data := [], sys_profile := true }

/-- An `_inst_data` snapshot at finalize time: a root, two children and
one grandchild, all with zero `child_time` as `_prof_node` creates
them. -/
def c8data : List (String × PNode) :=
  [("$total", { prof_node ["$total"] with time := 6 }),
   ("$total@A", { prof_node ["$total", "A"] with time := 3 }),
   ("$total@A@B", { prof_node ["$total", "A", "B"] with time := 1 }),
   ("$total@C", { prof_node ["$total", "C"] with time := 2 })]

/-- The result of the child-time pass on `c8data`. -/
def c8out : List (String × PNode) :=
  [("$total", { prof_node ["$total"] with time := 6, child_time := 5 }),
   ("$total@A", { prof_node ["$total", "A"] with time := 3, child_time := 1 }),
   ("$total@A@B", { prof_node ["$total", "A", "B"] with time := 1 }),
   ("$total@C", { prof_node ["$total", "C"] with time := 2 })]

/-- The root node of `c8out`. -/
def c8node : PNode := { prof_node ["$total"] with time := 6, child_time := 5 }

/-- The specification's direct-children sum: the total of the `time`
fields of exactly the entries whose path is `k` plus one more segment
(i.e. whose parent path is `k`). -/
def dcsum (iter : List (String × PNode)) (k : String) : Rat :=
  ((iter.filter (fun e => decide (pparent e.1 = some k))).map (fun e => e.2.time)).sum

/-! ## Claim theorems -/

/-- C1: the claim says that merging two raw files whose extensions parse
as integers returns a merged tree with summed node counts and a summed
root.  In fact the rank decoration renames every segment — including the
root record `$total` — so the percentage pass's lookup of the undecorated
key `'$total'` raises `KeyError` on every such pair of files: no tree is
returned at all. -/
theorem c1_two_decorated_files_raise_keyerror :
    errOf (process_profile c1fs ["a.0", "b.1"]) = some "KeyError: $total" := by
  with_unfolding_all rfl

/-- C2 counterexample: on a raw file holding only `$total 1 0.0` the
claim asserts `process_profile` does not raise; in fact it returns no
result. -/
theorem c2_zero_total_returns_no_result :
    okOf (process_profile c2fs ["prof.0"]) = none := by
  with_unfolding_all rfl

/-- C2 amended: on a raw file holding only `$total 1 0.0`,
`process_profile` raises `ZeroDivisionError` in the percentage pass (at
`pct_parent = 0.0 / 0.0`); no sentinel value exists. -/
theorem c2_zero_total_raises_zerodivisionerror :
    errOf (process_profile c2fs ["prof.0"]) = some "ZeroDivisionError: float division by zero" := by
  with_unfolding_all rfl

/-- C3 counterexample: for the raw file `A 1 2.0`, `A@B 1 1.0`,
`$total 1 3.0` the claim asserts `process_profile` yields a synthetic
node `A@$parent` and zeroes node `A`'s time; in fact the returned node
set is exactly `A` (time still `2`), `A@B` and `$total` — no `A@$parent`
node exists and no time is zeroed. -/
theorem c3_merge_scenario_no_parent_node :
    (okOf (process_profile c3fs ["prof.0"])).map
        (fun r => r.1.map (fun n => (n.name, n.time))) =
      some [("A", 2), ("A@B", 1), ("$total", 3)] := by
  with_unfolding_all rfl

/-- C3 amended: on that raw file `process_profile` yields node `A` with
`time = 2.0`, `count = 1` (not zeroed), node `A@B` unchanged with
`time = 1.0` and `pct_total = 1/3`, and `tot_time` of function `A` equal
to `2.0`; no `A@$parent` node is produced and `child_time` is not
computed — the `$parent` synthesis, the `child_time` accumulation and
the zeroing belong to `_finalize_profile` at trace-writing time (its
synthetic records would have to be present in the raw file), not to
`process_profile`. -/
theorem c3_merge_scenario_result :
    (okOf (process_profile c3fs ["prof.0"])).map (fun r =>
        (r.1.map (fun n => (n.name, n.time, n.count, n.pct_total)),
         r.2.map (fun e => (e.1, e.2.tot_time)))) =
      some ([("A", 2, 1, (2 : Rat)/3), ("A@B", 1, 1, (1 : Rat)/3), ("$total", 3, 1, 1)],
            [("A", 2), ("B", 1), ("$total", 3)]) := by
  with_unfolding_all rfl

/-- C4: the claim says records sharing a decorated path accumulate into
one tree node whose time/count are the sums.  In fact
`tree_nodes[funcpath] = node = _prof_node(parts)` binds a FRESH node on
every record, so a later record replaces the earlier node: for records
`A 1 2.0` and `A 1 3.0` the resulting node `A` has `time = 3` and
`count = 1`, not the sums `5` and `2` (only the totals bucket
accumulates, showing the intended accumulation). -/
theorem c4_duplicate_path_replaces_node :
    (okOf (process_profile c4fs ["prof.0"])).map (fun r =>
        (r.1.map (fun n => (n.name, n.time, n.count)),
         r.2.map (fun e => (e.1, e.2.tot_time, e.2.tot_count)))) =
      some ([("A", 3, 1), ("$total", 6, 1)], [("A", 5, 2), ("$total", 6, 1)]) := by
  with_unfolding_all rfl

/-- Looking up the key just written by `dinsert` yields the written
value. -/
theorem dget_dinsert_self {α : Type} (m : List (String × α)) (k : String) (v : α) :
    dget (dinsert m k v) k = some v := by
  induction m with
  | nil => simp [dinsert, dget]
  | cons e rest ih => by_cases h : e.1 = k <;> simp [dinsert, dget, h, ih]

/-- If some element of the list fails, `mapE` yields no result. -/
theorem mapE_fail {α β : Type} (f : α → Except String β) (l : List α) (x : α)
    (hx : x ∈ l) (hfail : okOf (f x) = none) : okOf (mapE f l) = none := by
  induction l with
  | nil => cases hx
  | cons a rest ih =>
    cases hx with
    | head =>
      cases hfa : f x with
      | error e => simp [mapE, hfa, okOf]
      | ok b => rw [hfa] at hfail; simp [okOf] at hfail
    | tail _ hmem =>
      cases hfa : f a with
      | error e => simp [mapE, hfa, okOf]
      | ok b =>
        have hrest := ih hmem
        cases hm : mapE f rest with
        | error e => simp [mapE, hfa, hm, okOf]
        | ok bs => rw [hm] at hrest; simp [okOf] at hrest

/-- C5 counterexample: with call-site `X` on top of the stack, a matched
return event carrying the non-matching token `Y` does not raise: the
tracker pops the stack anyway and records a timing under the joined path
`$total@X`. -/
theorem c5_mismatched_return_absorbed :
    okOf (instance_profile g5 (ProfEvent.ret true "Y" 5)) =
      some { g5 with
             call_stack := ["$total"], timing_stack := [0],
             inst_data := [("$total", prof_node ["$total"]),
               ("$total@X", { prof_node ["$total", "X"] with time := 4, count := 1 })] } := by
  with_unfolding_all rfl

/-- C5 amended: `_instance_profile` never compares a return event's
call-site token with the stack top — it does not even rebuild the token
on return.  Whenever the call and timing stacks are nonempty, a matched
return succeeds and its result is independent of the event's token; the
out-of-order return is silently absorbed, not raised. -/
theorem c5_return_ignores_token (s : ProfGlobals) (tok1 tok2 : String) (now : Rat)
    (hcs : s.call_stack ≠ []) (hts : s.timing_stack ≠ []) :
    instance_profile s (ProfEvent.ret true tok1 now) =
        instance_profile s (ProfEvent.ret true tok2 now) ∧
      (okOf (instance_profile s (ProfEvent.ret true tok1 now))).isSome = true := by
  refine ⟨rfl, ?_⟩
  simp only [instance_profile, if_true]
  rw [if_neg (by simp [List.isEmpty_iff, hcs])]
  obtain ⟨t0, hgl⟩ := Option.isSome_iff_exists.mp (List.getLast?_isSome.mpr hts)
  rw [hgl]
  simp [okOf]

/-- C5 witness. -/
theorem c5_return_ignores_token_witness :
    instance_profile g5 (ProfEvent.ret true "X" 5) =
        instance_profile g5 (ProfEvent.ret true "Y" 5) ∧
      (okOf (instance_profile g5 (ProfEvent.ret true "X" 5))).isSome = true :=
  c5_return_ignores_token g5 "X" "Y" 5 (by decide) (by decide)

/-- C6 counterexample: calling `start()` while a session is active does
not fail with an error — it prints a notice and returns with the state
unchanged. -/
theorem c6_start_while_active_prints_no_error :
    start gActive 9 = (gActive, ["profiling is already active."], none) := by
  with_unfolding_all rfl

/-- C6 amended: calling `start()` while a profiling session is already
active prints "profiling is already active." and returns without effect
(no error is raised); calling `stop()` with no active session is a
harmless no-op. -/
theorem c6_start_active_prints_and_stop_idle_noop (s1 s2 : ProfGlobals) (t1 t2 : Rat)
    (h1 : s1.profile_start ≠ none) (h2 : s2.profile_start = none) :
    start s1 t1 = (s1, ["profiling is already active."], none) ∧
      stop s2 t2 = (s2, none) := by
  constructor
  · unfold start
    cases h : s1.profile_start with
    | none => exact absurd h h1
    | some t => rfl
  · unfold stop
    rw [h2]

/-- C6 witness. -/
theorem c6_start_active_prints_and_stop_idle_noop_witness :
    start gActive 9 = (gActive, ["profiling is already active."], none) ∧
      stop gIdle 4 = (gIdle, none) :=
  c6_start_active_prints_and_stop_idle_noop gActive gIdle 9 4 (by decide) (by decide)

/-- C10: when `start()` fails because a foreign profile function is
already registered with the runtime, the `RuntimeError` is raised only
after the session globals were mutated: the start time is recorded, the
`$total` root token has been pushed onto the call stack and the `$total`
node exists — the failed `start` is not atomic. -/
theorem c10_start_conflict_mutates_before_raise (s : ProfGlobals) (now : Rat)
    (h1 : s.profile_start = none) (h2 : s.sys_profile = true) :
    (start s now).2.2 = some "RuntimeError: another profile function is already active." ∧
      (start s now).1.profile_start = some now ∧
      (start s now).1.call_stack = s.call_stack ++ ["$total"] ∧
      (dget (start s now).1.inst_data "$total").isSome = true := by
  unfold start
  rw [h1]
  cases hsetup : s.profile_setup <;>
    cases hg : dget s.inst_data "$total" <;>
      simp [setup, h2, hsetup, hg, dget_dinsert_self]

/-- C10 witness. -/
theorem c10_start_conflict_mutates_before_raise_witness :
    (start g10 7).2.2 = some "RuntimeError: another profile function is already active." ∧
      (start g10 7).1.profile_start = some 7 ∧
      (start g10 7).1.call_stack = g10.call_stack ++ ["$total"] ∧
      (dget (start g10 7).1.inst_data "$total").isSome = true :=
  c10_start_conflict_mutates_before_raise g10 7 (by decide) (by decide)

/-- C9 amended: a malformed raw line makes the reader raise a parse
error rather than skip the line, but the failure does not name the
offending file or line: the reader's outcome on a readable file is a
function of the file's contents alone (`mapE parse_line`), so the error
carries no information about `rawname`. -/
theorem c9_parse_error_propagates_without_filename
    (fs : String → Option (List String)) (rawname : String) (lines : List String)
    (h : fs rawname = some lines) :
    iter_raw_prof_file fs rawname = mapE parse_line lines ∧
      ((∃ l ∈ lines, okOf (parse_line l) = none) →
        okOf (iter_raw_prof_file fs rawname) = none) := by
  constructor
  · unfold iter_raw_prof_file
    rw [h]
  · intro hex
    obtain ⟨l, hl, hfail⟩ := hex
    unfold iter_raw_prof_file
    rw [h]
    exact mapE_fail parse_line lines l hl hfail

/-- C9 witness: the malformed line `$total 1` makes the reader yield no
result. -/
theorem c9_parse_error_propagates_without_filename_witness :
    okOf (iter_raw_prof_file c9fs "prof.0") = none :=
  (c9_parse_error_propagates_without_filename c9fs "prof.0" ["$total 1"] rfl).2
    ⟨"$total 1", by decide, by with_unfolding_all rfl⟩

/-- C9 counterexample: the claim says the reader's failure names the
offending file.  For the malformed line `$total 1` the reader raises the
very same error no matter which file it reads, so the failure cannot
name the offending file (nor its line number). -/
theorem c9_malformed_error_lacks_filename :
    errOf (iter_raw_prof_file c9fs "data_a.raw") =
        some "ValueError: not enough values to unpack (expected 3)" ∧
      errOf (iter_raw_prof_file c9fs "other_b.raw") =
        some "ValueError: not enough values to unpack (expected 3)" := by
  constructor
  · with_unfolding_all rfl
  · with_unfolding_all rfl

/-- Splitting never produces an empty list of segments. -/
theorem splitCharsSep_ne_nil (sep : Char) (cs : List Char) : splitCharsSep sep cs ≠ [] := by
  cases cs with
  | nil => simp [splitCharsSep]
  | cons c rest =>
    unfold splitCharsSep
    cases h : splitCharsSep sep rest with
    | nil => simp
    | cons g gs => by_cases hc : c = sep <;> simp [hc]

/-- Joining the segments of a character-level split restores the
characters. -/
theorem joinSegsChars_splitCharsSep (cs : List Char) :
    joinSegsChars (splitCharsSep '@' cs) = cs := by
  induction cs with
  | nil => rfl
  | cons c rest ih =>
    unfold splitCharsSep
    cases h : splitCharsSep '@' rest with
    | nil => exact absurd h (splitCharsSep_ne_nil '@' rest)
    | cons g gs =>
      rw [h] at ih
      show joinSegsChars (if c = '@' then [] :: g :: gs else (c :: g) :: gs) = c :: rest
      by_cases hc : c = '@'
      · subst hc
        rw [if_pos rfl]
        show [] ++ '@' :: joinSegsChars (g :: gs) = '@' :: rest
        rw [List.nil_append, ih]
      · rw [if_neg hc]
        cases gs with
        | nil =>
          show c :: g = c :: rest
          rw [show g = rest from ih]
        | cons g2 gs2 =>
          show (c :: g) ++ '@' :: joinSegsChars (g2 :: gs2) = c :: rest
          rw [List.cons_append]
          rw [show g ++ '@' :: joinSegsChars (g2 :: gs2) = rest from ih]

/-- `joinSegs` over wrapped character lists is the wrapped character
join. -/
theorem joinSegs_map_mk (l : List (List Char)) :
    joinSegs (l.map String.mk) = String.mk (joinSegsChars l) := by
  induction l with
  | nil => rfl
  | cons g tail ih =>
    cases tail with
    | nil => rfl
    | cons g2 rest =>
      show String.mk g ++ "@" ++ joinSegs ((g2 :: rest).map String.mk) =
        String.mk (joinSegsChars (g :: g2 :: rest))
      rw [ih]
      show String.mk ((g ++ ['@']) ++ joinSegsChars (g2 :: rest)) =
        String.mk (g ++ '@' :: joinSegsChars (g2 :: rest))
      rw [List.append_assoc]
      rfl

/-- Python's join/split inverse law: `'@'.join(s.split('@')) == s`. -/
theorem joinSegs_pysplitSep (s : String) : joinSegs (pysplitSep s) = s := by
  unfold pysplitSep
  rw [joinSegs_map_mk, joinSegsChars_splitCharsSep]

/-- A split path has at least one segment. -/
theorem pysplitSep_ne_nil (s : String) : pysplitSep s ≠ [] := by
  unfold pysplitSep
  intro h
  exact splitCharsSep_ne_nil '@' s.data (List.map_eq_nil_iff.mp h)

/-- Joining with one appended segment appends it after a separator. -/
theorem joinSegs_append_last (l : List String) (x : String) (h : l ≠ []) :
    joinSegs (l ++ [x]) = joinSegs l ++ "@" ++ x := by
  induction l with
  | nil => exact absurd rfl h
  | cons p tail ih =>
    cases tail with
    | nil => rfl
    | cons q rest =>
      show p ++ "@" ++ joinSegs ((q :: rest) ++ [x]) =
        (p ++ "@" ++ joinSegs (q :: rest)) ++ "@" ++ x
      rw [ih (by simp)]
      simp [String.append_assoc]

/-- C7: at finalize time, for every node whose `child_time` is positive,
exactly one synthetic leaf is emitted, keyed by the node's path extended
by the segment `$parent`, with `time = node.time - node.child_time` and
`count = 1`; nodes with zero `child_time` contribute nothing (and the
pass does not modify the input nodes, so their stored times are
unchanged): the emitted list is exactly the qualifying entries mapped to
their synthetic `$parent` leaves. -/
theorem c7_compute_parnodes_spec (data : List (String × PNode)) :
    compute_parnodes data =
      (data.filter (fun e => decide (0 < e.2.child_time))).map (fun e =>
        (e.1 ++ "@$parent",
         { prof_node (pysplitSep e.1 ++ ["$parent"]) with
           time := e.2.time - e.2.child_time, count := 1 })) := by
  induction data with
  | nil => rfl
  | cons e rest ih =>
    have hstep : compute_parnodes (e :: rest) =
        if 0 < e.2.child_time then
          (joinSegs (pysplitSep e.1 ++ ["$parent"]),
            { prof_node (pysplitSep e.1 ++ ["$parent"]) with
              time := e.2.time - e.2.child_time, count := 1 }) :: compute_parnodes rest
        else compute_parnodes rest := rfl
    by_cases h : 0 < e.2.child_time
    · have hkey : joinSegs (pysplitSep e.1 ++ ["$parent"]) = e.1 ++ "@$parent" := by
        rw [joinSegs_append_last (pysplitSep e.1) "$parent" (pysplitSep_ne_nil e.1)]
        rw [joinSegs_pysplitSep, String.append_assoc]
        rw [show ("@" ++ "$parent" : String) = "@$parent" from by decide]
      rw [hstep, if_pos h, List.filter_cons_of_pos (by simpa using h), List.map_cons, ih, hkey]
    · rw [hstep, if_neg h, List.filter_cons_of_neg (by simpa using h), ih]

/-- `dmodify` preserves the key sequence. -/
theorem keys_dmodify {α : Type} (m m2 : List (String × α)) (k : String) (f : α → α)
    (h : dmodify m k f = some m2) : m2.map Prod.fst = m.map Prod.fst := by
  induction m generalizing m2 with
  | nil => exact Option.noConfusion h
  | cons e rest ih =>
    simp only [dmodify] at h
    by_cases he : e.1 = k
    · rw [if_pos he] at h
      injection h with h2
      subst h2
      simp
    · rw [if_neg he] at h
      cases hm : dmodify rest k f with
      | none => rw [hm] at h; exact Option.noConfusion h
      | some r =>
        rw [hm] at h
        simp only [Option.map_some'] at h
        injection h with h2
        subst h2
        simp [ih r hm]

/-- Lookups after `dmodify`: the modified key's value is mapped through
`f`, every other lookup is unchanged. -/
theorem dget_dmodify {α : Type} (m m2 : List (String × α)) (k : String) (f : α → α)
    (h : dmodify m k f = some m2) (k2 : String) :
    dget m2 k2 = if k2 = k then (dget m k).map f else dget m k2 := by
  induction m generalizing m2 with
  | nil => exact Option.noConfusion h
  | cons e rest ih =>
    simp only [dmodify] at h
    by_cases he : e.1 = k
    · rw [if_pos he] at h
      injection h with h2
      subst h2
      by_cases hk2 : k2 = k
      · subst hk2
        rw [if_pos rfl]
        simp [dget, he]
      · rw [if_neg hk2]
        have hne : e.1 ≠ k2 := by rw [he]; exact fun hh => hk2 hh.symm
        simp [dget, hne]
    · rw [if_neg he] at h
      cases hm : dmodify rest k f with
      | none => rw [hm] at h; exact Option.noConfusion h
      | some r =>
        rw [hm] at h
        simp only [Option.map_some'] at h
        injection h with h2
        subst h2
        have ihr := ih r hm
        by_cases hk2 : k2 = k
        · subst hk2
          rw [if_pos rfl]
          have hne : e.1 ≠ k2 := fun hh => he hh
          simp only [dget, if_neg hne]
          rw [ihr, if_pos rfl]
        · rw [if_neg hk2]
          by_cases he2 : e.1 = k2
          · simp [dget, he2]
          · simp only [dget, if_neg he2]
            rw [ihr, if_neg hk2]

/-- The child-time loop preserves the key sequence. -/
theorem keys_childTimeLoop (iter m m2 : List (String × PNode))
    (h : childTimeLoop iter m = Except.ok m2) : m2.map Prod.fst = m.map Prod.fst := by
  induction iter generalizing m with
  | nil =>
    simp only [childTimeLoop] at h
    injection h with h2
    subst h2
    rfl
  | cons qd rest ih =>
    simp only [childTimeLoop] at h
    split at h
    next => exact ih m h
    next p hp =>
      split at h
      next => exact Except.noConfusion h
      next m1 hm =>
        rw [ih m1 h]
        exact keys_dmodify m m1 p _ hm

/-- The invariant of the child-time loop: after processing `iter`
starting from map `m`, every key's `child_time` has grown by exactly the
total `time` of the iterated entries whose parent is that key. -/
theorem childTimeLoop_dget (iter : List (String × PNode)) (m m2 : List (String × PNode))
    (h : childTimeLoop iter m = Except.ok m2) (k : String) :
    dget m2 k = (dget m k).map
      (fun n => { n with child_time := n.child_time + dcsum iter k }) := by
  induction iter generalizing m with
  | nil =>
    simp only [childTimeLoop] at h
    injection h with h2
    subst h2
    cases hg : dget m k with
    | none => simp
    | some n => cases n; simp [dcsum]
  | cons qd rest ih =>
    simp only [childTimeLoop] at h
    split at h
    next hp =>
      rw [ih m h]
      have hsum : dcsum (qd :: rest) k = dcsum rest k := by
        simp [dcsum, List.filter_cons, hp]
      rw [hsum]
    next p hp =>
      split at h
      next => exact Except.noConfusion h
      next m1 hm =>
        rw [ih m1 h]
        rw [dget_dmodify m m1 p _ hm k]
        by_cases hk : k = p
        · subst hk
          rw [if_pos rfl]
          have hsum : dcsum (qd :: rest) k = qd.2.time + dcsum rest k := by
            simp [dcsum, List.filter_cons, hp]
          rw [hsum]
          cases hg : dget m k with
          | none => simp
          | some n => cases n; simp [add_assoc]
        · rw [if_neg hk]
          have hsum : dcsum (qd :: rest) k = dcsum rest k := by
            have hne : ¬ pparent qd.1 = some k := by
              rw [hp]
              exact fun hh => hk (Option.some_inj.mp hh).symm
            simp [dcsum, List.filter_cons, hne]
          rw [hsum]

/-- With distinct keys, membership determines the lookup. -/
theorem dget_of_mem_nodup {α : Type} (m : List (String × α)) (k : String) (v : α)
    (hm : (k, v) ∈ m) (hnd : (m.map Prod.fst).Nodup) : dget m k = some v := by
  induction m with
  | nil => cases hm
  | cons e rest ih =>
    rw [List.map_cons, List.nodup_cons] at hnd
    cases hm with
    | head => simp [dget]
    | tail _ hmem =>
      by_cases he : e.1 = k
      · exfalso
        apply hnd.1
        rw [he]
        exact List.mem_map_of_mem Prod.fst hmem
      · simp only [dget, if_neg he]
        exact ih hmem hnd.2

/-- A successful lookup is a member. -/
theorem mem_of_dget {α : Type} (m : List (String × α)) (k : String) (v : α)
    (h : dget m k = some v) : (k, v) ∈ m := by
  induction m with
  | nil => simp [dget] at h
  | cons e rest ih =>
    by_cases he : e.1 = k
    · simp only [dget, if_pos he] at h
      injection h with h2
      have he2 : e = (k, v) := by
        cases e
        simp only at he h2
        rw [he, h2]
      rw [← he2]
      exact List.mem_cons_self e rest
    · simp only [dget, if_neg he] at h
      exact List.mem_cons_of_mem e (ih h)

/-- C8: after the child-time pass at finalize (which starts from nodes
whose `child_time` is zero, as `_prof_node` creates them), every node's
`child_time` equals the sum of the `time` fields of exactly the nodes
whose path is that node's path plus one more segment — direct children
only; grandchildren contribute only through their parent's inclusive
time, never directly. -/
theorem c8_child_time_pass_direct_children (data out : List (String × PNode))
    (hnd : (data.map Prod.fst).Nodup)
    (h0 : ∀ e ∈ data, e.2.child_time = 0)
    (hok : child_time_pass data = Except.ok out)
    (fp : String) (n : PNode) (hm : (fp, n) ∈ out) :
    n.child_time = dcsum data fp := by
  have hkeys : out.map Prod.fst = data.map Prod.fst :=
    keys_childTimeLoop data data out hok
  have hout : dget out fp = some n :=
    dget_of_mem_nodup out fp n hm (by rw [hkeys]; exact hnd)
  have hinv := childTimeLoop_dget data data out hok fp
  rw [hout] at hinv
  cases hg : dget data fp with
  | none =>
    rw [hg] at hinv
    exact Option.noConfusion hinv
  | some n0 =>
    rw [hg] at hinv
    have h00 : n0.child_time = 0 := h0 (fp, n0) (mem_of_dget data fp n0 hg)
    simp only [Option.map_some', Option.some_inj] at hinv
    rw [hinv]
    show n0.child_time + dcsum data fp = dcsum data fp
    rw [h00, zero_add]

/-- C8 witness: on the concrete snapshot `c8data` the pass gives the
root `child_time = 5`, the sum over its two direct children (times `3`
and `2`), the grandchild (time `1`) contributing only to `$total@A`. -/
theorem c8_child_time_pass_direct_children_witness :
    c8node.child_time = dcsum c8data "$total" :=
  c8_child_time_pass_direct_children c8data c8out (by decide)
    (of_decide_eq_true (by with_unfolding_all rfl))
    (by with_unfolding_all rfl) "$total" c8node
    (of_decide_eq_true (by with_unfolding_all rfl))

end Iprof
